import Mathlib

/-!
Verification of the web-llm-test repository: a shallow embedding of the
chat-submission, configuration-form, engine-lifecycle, statistics and
object-exploration code, with theorems settling the spec claims.
-/

namespace WebLLM

/-- Concatenation of a list of strings in order (JS `+=` accumulation). -/
def concatAll : List String → String
  | [] => ""
  | s :: ss => s ++ concatAll ss

theorem concatAll_filter_ne_empty (l : List String) :
    concatAll (l.filter (fun s => s ≠ "")) = concatAll l := by
  induction l with
  | nil => rfl
  | cons s ss ih =>
    simp only [ne_eq, decide_not] at ih ⊢
    by_cases hs : s = ""
    · subst hs
      simpa [concatAll, List.filter] using ih
    · simp [concatAll, List.filter, hs, ih]

/-- Whitespace as recognized by JS `String.prototype.trim` (the ASCII cases;
the chat input is ordinary text). -/
def isJSWhitespace (c : Char) : Bool :=
  c = ' ' ∨ c = '\t' ∨ c = '\n' ∨ c = '\r' ∨ c = '\x0b' ∨ c = '\x0c'

/-- JS `input.trim()`: strip leading and trailing whitespace. -/
def jsTrim (s : String) : String :=
  ⟨((s.data.dropWhile isJSWhitespace).reverse.dropWhile isJSWhitespace).reverse⟩

/-- JS `s.toUpperCase()` on the ASCII range (log level names are ASCII). -/
def jsToUpper (s : String) : String :=
  ⟨s.data.map Char.toUpper⟩

/-! ## Chat data model (src/types/llm.ts) -/

/-- Role of a chat message: 'system' | 'user' | 'assistant'. -/
inductive Role where
  | system
  | user
  | assistant
deriving DecidableEq, Repr

/-- `ChatMessage` from src/types/llm.ts: a role and a content string. -/
structure ChatMessage where
  role : Role
  content : String
deriving DecidableEq, Repr

/-! ## Streaming chunks (web-llm ChatCompletionChunk as consumed by handleSubmit)

`chunk.choices?.[0]?.delta?.content` navigates optional fields, so the
delta and its content are modelled as options. -/

/-- The delta of a streamed choice; `content` may be absent. -/
structure Delta where
  content : Option String
deriving DecidableEq, Repr

/-- A streamed choice; its `delta` may be absent (optional chaining in the code). -/
structure Choice where
  delta : Option Delta
deriving DecidableEq, Repr

/-- Token usage statistics attached to a chunk when `include_usage` is set. -/
structure Usage where
  prompt_tokens : Option Nat
  completion_tokens : Option Nat
deriving DecidableEq, Repr

/-- A streamed chat-completion chunk as read by the loop in handleSubmit. -/
structure Chunk where
  choices : List Choice
  usage : Option Usage
deriving DecidableEq, Repr

/-- `chunk.choices?.[0]?.delta?.content || ''` from the streaming loop:
the first choice's delta content, with every missing link and the
JS falsy-or collapsing to the empty string. -/
def chunkContent (c : Chunk) : String :=
  (((c.choices.head?).bind Choice.delta).bind Delta.content).getD ""

namespace ChatSubmit

/-- `updatedMessages[updatedMessages.length - 1] = { ...last, content: fullResponse }`
guarded by `updatedMessages.length > 0`: replace the content of the last
message, keeping its role; the empty list is returned unchanged. -/
def updateLast : List ChatMessage → String → List ChatMessage
  | [], _ => []
  | [m], c => [{ m with content := c }]
  | m :: m2 :: ms, c => m :: updateLast (m2 :: ms) c

/-- One iteration of the `for await (const chunk of chunks)` loop of
handleSubmit (src/unnamed/part_001, final ChatInterface variant): the chunk's
delta content is appended to `fullResponse` and the last message's content is
overwritten with the accumulated `fullResponse`. -/
def streamStep (st : List ChatMessage × String) (ch : Chunk) :
    List ChatMessage × String :=
  let content := chunkContent ch
  let full := st.2 ++ content
  (updateLast st.1 full, full)

/-- The whole streaming loop: fold `streamStep` over the chunks starting from
`fullResponse = ''`. -/
def streamLoop (msgs : List ChatMessage) (chunks : List Chunk) :
    List ChatMessage × String :=
  chunks.foldl streamStep (msgs, "")

/-- handleSubmit (src/unnamed/part_001, final ChatInterface variant), success
path: the guard
`if (!input.trim() || !currentEngine || isGenerating || !modelReady) return;`
leaves the message list unchanged; otherwise the user message and an empty
assistant message are appended and the streaming loop fills the assistant
message. -/
def handleSubmit (prev : List ChatMessage) (input : String)
    (enginePresent modelReady isGenerating : Bool) (chunks : List Chunk) :
    List ChatMessage :=
  if jsTrim input = "" ∨ enginePresent = false ∨ isGenerating = true ∨ modelReady = false then
    prev
  else
    let userMessage : ChatMessage := ⟨Role.user, input⟩
    let assistantMessage : ChatMessage := ⟨Role.assistant, ""⟩
    (streamLoop (prev ++ [userMessage, assistantMessage]) chunks).1

theorem updateLast_append (base : List ChatMessage) (m : ChatMessage) (c : String) :
    updateLast (base ++ [m]) c = base ++ [{ m with content := c }] := by
  induction base with
  | nil => rfl
  | cons b bs ih =>
    cases bs with
    | nil => rfl
    | cons b2 bs2 =>
      simpa [updateLast] using ih

theorem streamLoop_foldl (base : List ChatMessage) (r : Role) :
    ∀ (chunks : List Chunk) (s : String),
      chunks.foldl streamStep (base ++ [⟨r, s⟩], s) =
        (base ++ [⟨r, s ++ concatAll (chunks.map chunkContent)⟩],
          s ++ concatAll (chunks.map chunkContent)) := by
  intro chunks
  induction chunks with
  | nil => intro s; simp [concatAll]
  | cons ch chs ih =>
    intro s
    have hstep : streamStep (base ++ [⟨r, s⟩], s) ch =
        (base ++ [⟨r, s ++ chunkContent ch⟩], s ++ chunkContent ch) := by
      simp [streamStep, updateLast_append]
    calc (ch :: chs).foldl streamStep (base ++ [⟨r, s⟩], s)
        = chs.foldl streamStep (base ++ [⟨r, s ++ chunkContent ch⟩], s ++ chunkContent ch) := by
          rw [List.foldl_cons, hstep]
      _ = (base ++ [⟨r, s ++ concatAll ((ch :: chs).map chunkContent)⟩],
            s ++ concatAll ((ch :: chs).map chunkContent)) := by
          rw [ih (s ++ chunkContent ch)]
          simp [concatAll, String.append_assoc]

theorem string_empty_append (s : String) : "" ++ s = s := by
  cases s
  rfl

/-- C1: a completed streaming chat submission leaves every earlier message
unchanged and appends exactly two messages: a user message holding the
submitted input and an assistant message whose final content is the in-order
concatenation of the non-empty delta contents of the streamed chunks. -/
theorem c1_streaming_submission (prev : List ChatMessage) (input : String)
    (chunks : List Chunk) (h : jsTrim input ≠ "") :
    handleSubmit prev input true true false chunks =
      prev ++ [⟨Role.user, input⟩,
        ⟨Role.assistant,
          concatAll ((chunks.map chunkContent).filter (fun s => s ≠ ""))⟩] := by
  rw [concatAll_filter_ne_empty]
  have hguard : ¬(jsTrim input = "" ∨ (true : Bool) = false ∨ (false : Bool) = true ∨
      (true : Bool) = false) := by simp [h]
  unfold handleSubmit
  rw [if_neg hguard]
  show (streamLoop (prev ++ [⟨Role.user, input⟩, ⟨Role.assistant, ""⟩]) chunks).1 = _
  have happ : prev ++ [(⟨Role.user, input⟩ : ChatMessage), ⟨Role.assistant, ""⟩] =
      (prev ++ [⟨Role.user, input⟩]) ++ [(⟨Role.assistant, ""⟩ : ChatMessage)] := by
    simp
  rw [streamLoop, happ,
    streamLoop_foldl (prev ++ [(⟨Role.user, input⟩ : ChatMessage)]) Role.assistant chunks ""]
  simp [string_empty_append]

/-- Witness for C1 at a concrete submission: three chunks, one with no
choices, streaming "He" and "llo". -/
theorem c1_streaming_submission_witness :
    jsTrim "hi" ≠ "" ∧
      handleSubmit [⟨Role.system, "You are a helpful AI assistant."⟩] "hi" true true false
          [⟨[⟨some ⟨some "He"⟩⟩], none⟩, ⟨[], none⟩, ⟨[⟨some ⟨some "llo"⟩⟩], none⟩] =
        [⟨Role.system, "You are a helpful AI assistant."⟩] ++
          [⟨Role.user, "hi"⟩,
            ⟨Role.assistant,
              concatAll (([(⟨[⟨some ⟨some "He"⟩⟩], none⟩ : Chunk), ⟨[], none⟩,
                ⟨[⟨some ⟨some "llo"⟩⟩], none⟩].map chunkContent).filter
                  (fun s => s ≠ ""))⟩] := by
  refine ⟨by decide, ?_⟩
  exact c1_streaming_submission [⟨Role.system, "You are a helpful AI assistant."⟩] "hi"
    [⟨[⟨some ⟨some "He"⟩⟩], none⟩, ⟨[], none⟩, ⟨[⟨some ⟨some "llo"⟩⟩], none⟩] (by decide)

end ChatSubmit

/-! ## Model configuration form (src/components/llm/ModelConfigForm.tsx) -/

namespace ConfigForm

/-- `ModelConfig` from src/types/llm.ts. All fields except `modelId` are
optional in TypeScript; rational numbers model JS numbers, with `none` also
covering NaN for the numeric fields. -/
structure ModelConfig where
  modelId : String
  temperature : Option ℚ
  maxTokens : Option ℚ
  topP : Option ℚ
  repetitionPenalty : Option ℚ
  logLevel : Option String
deriving DecidableEq, Repr

/-- The observable effects performed by the form's onSubmit handler, in
program order. -/
inductive FormEffect where
  | setIsLoading (b : Bool)
  | setStoredConfig (c : ModelConfig)
  | configChange (c : ModelConfig)
  | logInfo (modelId : String) (temperature : Option ℚ) (logLevel : Option String)
deriving DecidableEq, Repr

/-- onSubmit from ModelConfigForm.tsx (lines 115-132) as its effect trace:
setIsLoading(true); setStoredConfig(data); onConfigChange(data);
setIsLoading(false); logger.info(..., \x7bmodelId, temperature, logLevel\x7d). -/
def onSubmit (d : ModelConfig) : List FormEffect :=
  [FormEffect.setIsLoading true,
   FormEffect.setStoredConfig d,
   FormEffect.configChange d,
   FormEffect.setIsLoading false,
   FormEffect.logInfo d.modelId d.temperature d.logLevel]

/-- The payload written to local storage by an effect, if any. -/
def storedPayload : FormEffect → Option ModelConfig
  | FormEffect.setStoredConfig c => some c
  | _ => none

/-- The payload passed to the parent onConfigChange callback, if any. -/
def callbackPayload : FormEffect → Option ModelConfig
  | FormEffect.configChange c => some c
  | _ => none

/-- C2: for every submitted configuration d, onSubmit writes exactly d to
local storage (one setStoredConfig, payload d), invokes the parent callback
with exactly d (one onConfigChange, payload d), and the write precedes the
callback in the trace. -/
theorem c2_onsubmit_persists_then_notifies (d : ModelConfig) :
    (onSubmit d).filterMap storedPayload = [d] ∧
      (onSubmit d).filterMap callbackPayload = [d] ∧
      (onSubmit d).findIdx (fun e => (storedPayload e).isSome) <
        (onSubmit d).findIdx (fun e => (callbackPayload e).isSome) := by
  refine ⟨rfl, rfl, ?_⟩
  show (1 : ℕ) < 2
  decide

end ConfigForm

/-! ## Log level parsing (src/lib/server-logger.ts, src/lib/logger.ts) -/

namespace ServerLogger

/-- The LogLevel enum from src/lib/logger.ts. -/
inductive LogLevel where
  | off
  | error
  | warn
  | info
  | debug
  | trace
  | all
deriving DecidableEq, Repr

/-- Numeric value of each enum member (OFF = 0, ..., ALL = 6). -/
def LogLevel.toNat : LogLevel → ℕ
  | LogLevel.off => 0
  | LogLevel.error => 1
  | LogLevel.warn => 2
  | LogLevel.info => 3
  | LogLevel.debug => 4
  | LogLevel.trace => 5
  | LogLevel.all => 6

/-- The `levels` record literal inside parseLogLevel: lookup by exact key,
undefined (`none`) when the key is absent. -/
def levels (s : String) : Option LogLevel :=
  if s = "OFF" then some LogLevel.off
  else if s = "ERROR" then some LogLevel.error
  else if s = "WARN" then some LogLevel.warn
  else if s = "INFO" then some LogLevel.info
  else if s = "DEBUG" then some LogLevel.debug
  else if s = "TRACE" then some LogLevel.trace
  else if s = "ALL" then some LogLevel.all
  else none

/-- parseLogLevel (src/lib/server-logger.ts lines 16-30). `none` models JS
undefined; the empty string is also falsy at the `if (!levelStr)` guard.
`levels[levelStr.toUpperCase()] || LogLevel.INFO` falls back to INFO when
the lookup is undefined, and also when the looked-up value is the number 0,
i.e. LogLevel.OFF, because 0 is falsy. -/
def parseLogLevel (levelStr : Option String) : LogLevel :=
  match levelStr with
  | none => LogLevel.info
  | some s =>
    if s = "" then LogLevel.info
    else
      match levels (jsToUpper s) with
      | none => LogLevel.info
      | some lvl => if lvl.toNat = 0 then LogLevel.info else lvl

theorem toNat_eq_zero_iff (lvl : LogLevel) : lvl.toNat = 0 ↔ lvl = LogLevel.off := by
  cases lvl <;> simp [LogLevel.toNat]

/-- C10: parseLogLevel maps a recognized name case-insensitively to its
level, maps undefined and unrecognized strings to INFO, maps "OFF" (in any
case) to INFO instead of OFF because the falsy-or fallback replaces the
numeric value 0, and consequently never returns OFF. -/
theorem c10_parse_log_level :
    (∀ o, parseLogLevel o ≠ LogLevel.off) ∧
      parseLogLevel none = LogLevel.info ∧
      parseLogLevel (some "OFF") = LogLevel.info ∧
      parseLogLevel (some "off") = LogLevel.info ∧
      (∀ s lvl, levels (jsToUpper s) = some lvl → lvl ≠ LogLevel.off →
        parseLogLevel (some s) = lvl) ∧
      (∀ s, levels (jsToUpper s) = none → parseLogLevel (some s) = LogLevel.info) := by
  have hparse : ∀ s lvl, levels (jsToUpper s) = some lvl → lvl ≠ LogLevel.off →
      parseLogLevel (some s) = lvl := by
    intro s lvl hlook hne
    by_cases hs : s = ""
    · subst hs
      rw [show levels (jsToUpper "") = none from rfl] at hlook
      exact Option.noConfusion hlook
    · simp only [parseLogLevel, if_neg hs, hlook]
      rw [if_neg]
      intro h0
      exact hne ((toNat_eq_zero_iff lvl).mp h0)
  refine ⟨?_, rfl, by decide, by decide, hparse, ?_⟩
  · intro o
    match o with
    | none => simp [parseLogLevel]
    | some s =>
      by_cases hs : s = ""
      · subst hs; simp [parseLogLevel]
      · simp only [parseLogLevel, if_neg hs]
        match hlook : levels (jsToUpper s) with
        | none => simp
        | some lvl =>
          simp only
          by_cases h0 : lvl.toNat = 0
          · rw [if_pos h0]; simp
          · rw [if_neg h0]
            intro heq
            exact h0 (by rw [heq]; rfl)
  · intro s hlook
    by_cases hs : s = ""
    · subst hs; simp [parseLogLevel]
    · simp [parseLogLevel, if_neg hs, hlook]

/-- Witness for C10 at concrete inputs: a mixed-case recognized name and an
unrecognized name. -/
theorem c10_parse_log_level_witness :
    parseLogLevel (some "Debug") = LogLevel.debug ∧
      parseLogLevel (some "bogus") = LogLevel.info := by
  refine ⟨?_, ?_⟩
  · exact c10_parse_log_level.2.2.2.2.1 "Debug" LogLevel.debug (by decide) (by decide)
  · exact c10_parse_log_level.2.2.2.2.2 "bogus" (by decide)

end ServerLogger

/-! ## safeGetRuntimeStats (src/lib/objectExplorer.ts lines 392-410) -/

namespace RuntimeStats

/-- A JS value as relevant to safeGetRuntimeStats. An object or function
carries its `runtimeStatsText` property when that property is a function:
`some call` where `call` is the (awaited) outcome of invoking it, either a
value or a thrown error (`Except.error`). Primitives have no own
`runtimeStatsText` function. `number true _` is NaN. -/
inductive JSValue where
  | undef
  | null
  | boolean (b : Bool)
  | number (isNaN : Bool) (q : ℚ)
  | string (s : String)
  | object (runtimeStatsText : Option (Except Unit JSValue))
  | func (runtimeStatsText : Option (Except Unit JSValue))

/-- JS falsiness: undefined, null, false, 0, NaN and the empty string are
falsy; objects and functions are truthy. -/
def jsFalsy : JSValue → Bool
  | JSValue.undef => true
  | JSValue.null => true
  | JSValue.boolean b => !b
  | JSValue.number isNaN q => isNaN || q == 0
  | JSValue.string s => s == ""
  | JSValue.object _ => false
  | JSValue.func _ => false

/-- `typeof engineObj.runtimeStatsText === 'function'`: the callable, when
the property exists and is a function. -/
def getRTSFunction : JSValue → Option (Except Unit JSValue)
  | JSValue.object r => r
  | JSValue.func r => r
  | _ => none

/-- safeGetRuntimeStats: `if (!engine) return null`; then return null unless
`runtimeStatsText` is a function; call it inside try/catch (a throw yields
null); `await` the result and return it only if it is a string, else null. -/
def safeGetRuntimeStats (engine : JSValue) : Option String :=
  if jsFalsy engine then none
  else
    match getRTSFunction engine with
    | none => none
    | some (Except.error _) => none
    | some (Except.ok v) =>
      match v with
      | JSValue.string s => some s
      | _ => none

/-- C7: safeGetRuntimeStats is a total function (the embedding has no
exceptional exit, matching "never throws") that returns null when the engine
is null or undefined, when `runtimeStatsText` is not a function, when calling
it throws, and when the call's result is not a string; otherwise it returns
exactly the string the call produced. -/
theorem c7_safe_get_runtime_stats :
    (safeGetRuntimeStats JSValue.null = none ∧
        safeGetRuntimeStats JSValue.undef = none) ∧
      (∀ e, getRTSFunction e = none → safeGetRuntimeStats e = none) ∧
      (∀ e u, getRTSFunction e = some (Except.error u) → safeGetRuntimeStats e = none) ∧
      (∀ e v, getRTSFunction e = some (Except.ok v) → (∀ s, v ≠ JSValue.string s) →
        safeGetRuntimeStats e = none) ∧
      (∀ e s, getRTSFunction e = some (Except.ok (JSValue.string s)) →
        safeGetRuntimeStats e = some s) := by
  refine ⟨⟨rfl, rfl⟩, ?_, ?_, ?_, ?_⟩
  · intro e he
    cases e with
    | undef => rfl
    | null => rfl
    | boolean b => cases b <;> rfl
    | number isNaN q => exact ite_self none
    | string s => exact ite_self none
    | object r => simp only [getRTSFunction] at he; subst he; rfl
    | func r => simp only [getRTSFunction] at he; subst he; rfl
  · intro e u he
    cases e with
    | undef => exact Option.noConfusion he
    | null => exact Option.noConfusion he
    | boolean b => exact Option.noConfusion he
    | number isNaN q => exact Option.noConfusion he
    | string s => exact Option.noConfusion he
    | object r => simp only [getRTSFunction] at he; subst he; rfl
    | func r => simp only [getRTSFunction] at he; subst he; rfl
  · intro e v he hv
    cases e with
    | undef => exact Option.noConfusion he
    | null => exact Option.noConfusion he
    | boolean b => exact Option.noConfusion he
    | number isNaN q => exact Option.noConfusion he
    | string s => exact Option.noConfusion he
    | object r =>
      simp only [getRTSFunction] at he
      subst he
      cases v with
      | string s => exact absurd rfl (hv s)
      | undef => rfl
      | null => rfl
      | boolean b => rfl
      | number isNaN q => rfl
      | object r2 => rfl
      | func r2 => rfl
    | func r =>
      simp only [getRTSFunction] at he
      subst he
      cases v with
      | string s => exact absurd rfl (hv s)
      | undef => rfl
      | null => rfl
      | boolean b => rfl
      | number isNaN q => rfl
      | object r2 => rfl
      | func r2 => rfl
  · intro e s he
    cases e with
    | undef => exact Option.noConfusion he
    | null => exact Option.noConfusion he
    | boolean b => exact Option.noConfusion he
    | number isNaN q => exact Option.noConfusion he
    | string s2 => exact Option.noConfusion he
    | object r => simp only [getRTSFunction] at he; subst he; rfl
    | func r => simp only [getRTSFunction] at he; subst he; rfl

/-- Witness for C7: a truthy engine object whose runtimeStatsText call
returns the string "stats", and one whose call throws. -/
theorem c7_safe_get_runtime_stats_witness :
    safeGetRuntimeStats (JSValue.object (some (Except.ok (JSValue.string "stats")))) =
        some "stats" ∧
      safeGetRuntimeStats (JSValue.object (some (Except.error ()))) = none := by
  constructor
  · exact c7_safe_get_runtime_stats.2.2.2.2
      (JSValue.object (some (Except.ok (JSValue.string "stats")))) "stats" rfl
  · exact c7_safe_get_runtime_stats.2.2.1
      (JSValue.object (some (Except.error ()))) () rfl

end RuntimeStats

/-! ## Streaming-request retry on ModelNotLoadedError
(src/unnamed/part_001 lines 1072-1106) -/

namespace RetryLogic

/-- Shape of a caught error as probed by the retry condition: an object with
a `name` and possibly a nested `error.name`, a thrown string, or anything
else. -/
inductive ChatError where
  | named (name : String) (innerName : Option String)
  | thrownString (s : String)
  | other
deriving DecidableEq, Repr

/-- The inner-catch test:
`error && (errorObj.name === "ModelNotLoadedError" ||
 (errorObj.error && errorObj.error.name === "ModelNotLoadedError"))`.
A thrown string has no `name` or `error` property, so it is not retryable
here. -/
def isModelNotLoadedRetryable : ChatError → Bool
  | ChatError.named n inner =>
      n == "ModelNotLoadedError" || inner == some "ModelNotLoadedError"
  | _ => false

/-- Outcome of the create-with-retry block: the final result, how many times
`chat.completions.create` was called, and the delays awaited in between. -/
structure RetryOutcome (α : Type) where
  result : Except ChatError α
  createCalls : ℕ
  delaysMs : List ℕ
deriving Repr

/-- The try/catch around `currentEngine.chat.completions.create(chatOptions)`:
on a ModelNotLoadedError wait 5000 ms (`setTimeout(resolve, 5000)`) and retry
exactly once, letting a second failure propagate to the outer catch; re-throw
any other error without retrying. `attempts n` is the outcome the engine
gives the (n+1)-th create call. -/
def createWithRetry {α : Type} (attempts : ℕ → Except ChatError α) : RetryOutcome α :=
  match attempts 0 with
  | Except.ok r => ⟨Except.ok r, 1, []⟩
  | Except.error e =>
    if isModelNotLoadedRetryable e then
      match attempts 1 with
      | Except.ok r => ⟨Except.ok r, 2, [5000]⟩
      | Except.error e2 => ⟨Except.error e2, 2, [5000]⟩
    else ⟨Except.error e, 1, []⟩

/-- C3: when the first create call fails with an error identified as
ModelNotLoadedError, the request is retried exactly once after a fixed
5000 ms delay and the outcome is that of the second call; when it fails with
any other error, that error is re-thrown with no retry and no delay; a
successful first call is never retried; and in no case are more than two
create calls made. -/
theorem createWithRetry_of_ok {α : Type} (attempts : ℕ → Except ChatError α)
    (r : α) (h : attempts 0 = Except.ok r) :
    createWithRetry attempts = ⟨Except.ok r, 1, []⟩ := by
  unfold createWithRetry
  rw [h]

theorem createWithRetry_of_error {α : Type} (attempts : ℕ → Except ChatError α)
    (e : ChatError) (h : attempts 0 = Except.error e) :
    createWithRetry attempts =
      if isModelNotLoadedRetryable e then
        match attempts 1 with
        | Except.ok r => ⟨Except.ok r, 2, [5000]⟩
        | Except.error e2 => ⟨Except.error e2, 2, [5000]⟩
      else ⟨Except.error e, 1, []⟩ := by
  unfold createWithRetry
  rw [h]

theorem c3_retry_once_on_model_not_loaded {α : Type}
    (attempts : ℕ → Except ChatError α) :
    (∀ e, attempts 0 = Except.error e → isModelNotLoadedRetryable e = true →
        (createWithRetry attempts).createCalls = 2 ∧
          (createWithRetry attempts).delaysMs = [5000] ∧
          (createWithRetry attempts).result = attempts 1) ∧
      (∀ e, attempts 0 = Except.error e → isModelNotLoadedRetryable e = false →
        createWithRetry attempts = ⟨Except.error e, 1, []⟩) ∧
      (∀ r, attempts 0 = Except.ok r → createWithRetry attempts = ⟨Except.ok r, 1, []⟩) ∧
      (createWithRetry attempts).createCalls ≤ 2 := by
  refine ⟨?_, ?_, ?_, ?_⟩
  · intro e h0 hretry
    rw [createWithRetry_of_error attempts e h0, if_pos hretry]
    cases h1 : attempts 1 with
    | ok r => exact ⟨rfl, rfl, rfl⟩
    | error e2 => exact ⟨rfl, rfl, rfl⟩
  · intro e h0 hretry
    rw [createWithRetry_of_error attempts e h0, if_neg (by simp [hretry])]
  · intro r h0
    exact createWithRetry_of_ok attempts r h0
  · cases h0 : attempts 0 with
    | ok r =>
      rw [createWithRetry_of_ok attempts r h0]
      exact Nat.le_succ 1
    | error e =>
      rw [createWithRetry_of_error attempts e h0]
      by_cases hretry : isModelNotLoadedRetryable e = true
      · rw [if_pos hretry]
        cases h1 : attempts 1 with
        | ok r => exact Nat.le_refl 2
        | error e2 => exact Nat.le_refl 2
      · rw [if_neg hretry]
        exact Nat.le_succ 1

/-- Witness for C3: a first call failing with ModelNotLoadedError followed by
a successful second call, and a first call failing with a different error. -/
theorem c3_retry_once_on_model_not_loaded_witness :
    ((fun n => if n = 0 then Except.error (ChatError.named "ModelNotLoadedError" none)
        else Except.ok 42) 0 =
          Except.error (ChatError.named "ModelNotLoadedError" none) ∧
      isModelNotLoadedRetryable (ChatError.named "ModelNotLoadedError" none) = true ∧
      (createWithRetry (fun n =>
        if n = 0 then Except.error (ChatError.named "ModelNotLoadedError" none)
        else Except.ok 42)).createCalls = 2) ∧
      createWithRetry (fun _ => (Except.error (ChatError.named "TypeError" none) :
          Except ChatError ℕ)) =
        ⟨Except.error (ChatError.named "TypeError" none), 1, []⟩ := by
  constructor
  · refine ⟨rfl, by decide, ?_⟩
    exact ((c3_retry_once_on_model_not_loaded
      (fun n => if n = 0 then Except.error (ChatError.named "ModelNotLoadedError" none)
        else Except.ok 42)).1
      (ChatError.named "ModelNotLoadedError" none) rfl (by decide)).1
  · exact (c3_retry_once_on_model_not_loaded
      (fun _ => Except.error (ChatError.named "TypeError" none))).2.1
      (ChatError.named "TypeError" none) rfl (by decide)

end RetryLogic

/-! ## Session statistics state machine
(src/components/stats/StatCollectionProvider.tsx lines 74-194) -/

namespace SessionStatsM

/-- The SessionStats record, without the wall-clock fields (sessionId,
startTime, endTime), which no claimed invariant mentions and which the four
record operations never read. Rationals model JS numbers. -/
structure SessionStats where
  messageCount : ℕ
  userMessageCount : ℕ
  assistantMessageCount : ℕ
  totalPromptTokens : ℚ
  totalCompletionTokens : ℚ
  averageResponseTime : ℚ
  firstTokenLatencies : List ℚ
deriving DecidableEq, Repr

/-- The session object created by startNewSession (lines 88-99): every
counter and accumulator starts at zero. -/
def freshSession : SessionStats :=
  ⟨0, 0, 0, 0, 0, 0, []⟩

/-- The session-mutating operations exposed by the provider. -/
inductive StatOp where
  | startNewSession
  | recordUserMessage (length : ℕ)
  | recordAssistantMessage (length : ℕ) (responseTimeMs : ℚ) (firstTokenLatencyMs : ℚ)
  | recordTokenUsage (promptTokens : ℚ) (completionTokens : ℚ)
deriving DecidableEq, Repr

/-- One operation applied to the current session state (`none` = no session).
recordUserMessage with no session auto-starts one and returns without
counting the message; recordAssistantMessage and recordTokenUsage with no
session are no-ops. recordAssistantMessage recomputes the running average:
`totalResponseTime = avg * count + responseTimeMs` and the new average is
`totalResponseTime / (count + 1)`. -/
def applyOp : Option SessionStats → StatOp → Option SessionStats
  | _, StatOp.startNewSession => some freshSession
  | none, StatOp.recordUserMessage _ => some freshSession
  | some s, StatOp.recordUserMessage _ =>
      some { s with messageCount := s.messageCount + 1,
                    userMessageCount := s.userMessageCount + 1 }
  | none, StatOp.recordAssistantMessage _ _ _ => none
  | some s, StatOp.recordAssistantMessage _ r f =>
      let totalResponseTime := s.averageResponseTime * s.assistantMessageCount + r
      let newAssistantMessageCount := s.assistantMessageCount + 1
      some { s with messageCount := s.messageCount + 1,
                    assistantMessageCount := newAssistantMessageCount,
                    averageResponseTime := totalResponseTime / newAssistantMessageCount,
                    firstTokenLatencies := s.firstTokenLatencies ++ [f] }
  | none, StatOp.recordTokenUsage _ _ => none
  | some s, StatOp.recordTokenUsage p c =>
      some { s with totalPromptTokens := s.totalPromptTokens + p,
                    totalCompletionTokens := s.totalCompletionTokens + c }

/-- Run a sequence of operations starting from a fresh session. -/
def runOps (ops : List StatOp) : Option SessionStats :=
  ops.foldl applyOp (some freshSession)

/-- Ghost-instrumented step: alongside the session state it tracks the list
of response times recorded into the current session (reset whenever a new
session starts). -/
def applyOpTimes (st : Option SessionStats × List ℚ) (op : StatOp) :
    Option SessionStats × List ℚ :=
  let ts :=
    match st.1, op with
    | _, StatOp.startNewSession => []
    | none, StatOp.recordUserMessage _ => []
    | some _, StatOp.recordAssistantMessage _ r _ => st.2 ++ [r]
    | _, _ => st.2
  (applyOp st.1 op, ts)

/-- The response times recorded into the session that is current after
running `ops`. -/
def recordedTimes (ops : List StatOp) : List ℚ :=
  (ops.foldl applyOpTimes (some freshSession, [])).2

theorem fst_foldl_applyOpTimes (ops : List StatOp) :
    ∀ p : Option SessionStats × List ℚ,
      (ops.foldl applyOpTimes p).1 = ops.foldl applyOp p.1 := by
  induction ops with
  | nil => intro p; rfl
  | cons op ops ih =>
    intro p
    rw [List.foldl_cons, List.foldl_cons, ih]
    rfl

/-- The invariant: whenever a session is current, its message count splits
into user and assistant counts, and its running average times the assistant
count equals the sum of the recorded response times. -/
def SessionInv (p : Option SessionStats × List ℚ) : Prop :=
  ∀ s, p.1 = some s →
    s.messageCount = s.userMessageCount + s.assistantMessageCount ∧
      s.averageResponseTime * (s.assistantMessageCount : ℚ) = p.2.sum

theorem sessionInv_fresh_pair : SessionInv (some freshSession, ([] : List ℚ)) := by
  intro s hs
  injection hs with h
  subst h
  exact ⟨rfl, by simp [freshSession]⟩

theorem sessionInv_step (p : Option SessionStats × List ℚ) (op : StatOp)
    (hp : SessionInv p) : SessionInv (applyOpTimes p op) := by
  obtain ⟨st, ts⟩ := p
  intro s' heq
  cases op with
  | startNewSession =>
    cases st with
    | none =>
      injection heq with h
      subst h
      exact ⟨rfl, by simp [freshSession, applyOpTimes]⟩
    | some s =>
      injection heq with h
      subst h
      exact ⟨rfl, by simp [freshSession, applyOpTimes]⟩
  | recordUserMessage len =>
    cases st with
    | none =>
      injection heq with h
      subst h
      exact ⟨rfl, by simp [freshSession, applyOpTimes]⟩
    | some s =>
      obtain ⟨h1, h2⟩ := hp s rfl
      injection heq with h
      subst h
      constructor
      · show s.messageCount + 1 = s.userMessageCount + 1 + s.assistantMessageCount
        omega
      · exact h2
  | recordAssistantMessage len r f =>
    cases st with
    | none => exact Option.noConfusion heq
    | some s =>
      obtain ⟨h1, h2⟩ := hp s rfl
      injection heq with h
      subst h
      constructor
      · show s.messageCount + 1 = s.userMessageCount + (s.assistantMessageCount + 1)
        omega
      · show (s.averageResponseTime * (s.assistantMessageCount : ℚ) + r) /
            ((s.assistantMessageCount + 1 : ℕ) : ℚ) *
            ((s.assistantMessageCount + 1 : ℕ) : ℚ) = (ts ++ [r]).sum
        have hne : ((s.assistantMessageCount + 1 : ℕ) : ℚ) ≠ 0 := by
          exact_mod_cast Nat.succ_ne_zero s.assistantMessageCount
        rw [div_mul_cancel₀ _ hne, h2, List.sum_append]
        simp
  | recordTokenUsage pt ct =>
    cases st with
    | none => exact Option.noConfusion heq
    | some s =>
      obtain ⟨h1, h2⟩ := hp s rfl
      injection heq with h
      subst h
      exact ⟨h1, h2⟩

theorem sessionInv_foldl (ops : List StatOp) :
    ∀ p, SessionInv p → SessionInv (ops.foldl applyOpTimes p) := by
  induction ops with
  | nil => intro p hp; exact hp
  | cons op ops ih =>
    intro p hp
    rw [List.foldl_cons]
    exact ih _ (sessionInv_step p op hp)

/-- C8: every SessionStats value reachable from a fresh session by any
sequence of startNewSession, recordUserMessage, recordAssistantMessage and
recordTokenUsage operations satisfies
messageCount = userMessageCount + assistantMessageCount, and its
averageResponseTime multiplied by assistantMessageCount equals the sum of
the response times recorded into the current session. -/
theorem c8_session_stats_invariant (ops : List StatOp) (s : SessionStats)
    (h : runOps ops = some s) :
    s.messageCount = s.userMessageCount + s.assistantMessageCount ∧
      s.averageResponseTime * (s.assistantMessageCount : ℚ) =
        (recordedTimes ops).sum := by
  have hinv := sessionInv_foldl ops (some freshSession, []) sessionInv_fresh_pair
  refine hinv s ?_
  rw [fst_foldl_applyOpTimes]
  exact h

/-- Witness for C8 at a concrete run: one user message, two assistant
messages with response times 100 and 50 ms, some token usage and an
interleaved new session. -/
theorem c8_session_stats_invariant_witness :
    runOps [StatOp.startNewSession, StatOp.recordUserMessage 5,
        StatOp.recordAssistantMessage 7 100 20, StatOp.recordTokenUsage 3 4,
        StatOp.recordAssistantMessage 2 50 10] =
      some ⟨3, 1, 2, 3, 4, 75, [20, 10]⟩ ∧
      ((3 : ℕ) = 1 + 2 ∧
        (75 : ℚ) * ((2 : ℕ) : ℚ) =
          (recordedTimes [StatOp.startNewSession, StatOp.recordUserMessage 5,
            StatOp.recordAssistantMessage 7 100 20, StatOp.recordTokenUsage 3 4,
            StatOp.recordAssistantMessage 2 50 10]).sum) := by
  have hrun : runOps [StatOp.startNewSession, StatOp.recordUserMessage 5,
      StatOp.recordAssistantMessage 7 100 20, StatOp.recordTokenUsage 3 4,
      StatOp.recordAssistantMessage 2 50 10] = some ⟨3, 1, 2, 3, 4, 75, [20, 10]⟩ := by
    simp only [runOps, List.foldl, applyOp, freshSession, Option.some.injEq,
      SessionStats.mk.injEq]
    norm_num
  refine ⟨hrun, ?_⟩
  exact c8_session_stats_invariant _ _ hrun

end SessionStatsM

/-! ## Object explorer (src/lib/objectExplorer.ts): makeSafeCopy and search -/

namespace Explorer

/-- JS primitive values. -/
inductive Prim where
  | null
  | undef
  | boolean (b : Bool)
  | number (q : ℚ)
  | str (s : String)
deriving DecidableEq, Repr

/-- A JS value: a primitive, or a reference to a heap node. -/
inductive Val where
  | prim (p : Prim)
  | ref (r : ℕ)
deriving DecidableEq, Repr

/-- Content of a heap node: an array, a plain object (each property carries
its name, its enumerable flag and its value), or a function (its name and its
own properties). Cycles in the object graph arise through `Val.ref`. -/
inductive HeapVal where
  | arr (elems : List Val)
  | obj (props : List (String × Bool × Val))
  | func (name : String) (props : List (String × Val))
deriving Repr

/-- A JS object graph: node contents indexed by reference. -/
abbrev Heap := ℕ → HeapVal

/-- `typeof value === 'function'` for a heap node. -/
def isFuncNode : HeapVal → Bool
  | HeapVal.func _ _ => true
  | _ => false

/-- `pat` occurs at the start of `hay`. -/
def segMatchesAt : List Char → List Char → Bool
  | [], _ => true
  | _ :: _, [] => false
  | p :: ps, c :: cs => p == c && segMatchesAt ps cs

/-- `pat` occurs somewhere in `hay` (any suffix position). -/
def listContainsSeg (pat : List Char) : List Char → Bool
  | [] => segMatchesAt pat []
  | c :: t => segMatchesAt pat (c :: t) || listContainsSeg pat t

/-- JS `hay.includes(pat)`; the empty pattern is contained in everything. -/
def strIncludes (hay pat : String) : Bool :=
  listContainsSeg pat.data hay.data

/-- `filter.length > 0 && !filter.some(f => key.includes(f))` skips the key,
so a key is kept when the filter list is empty or some entry occurs in it. -/
def passesFilter (filt : List String) (key : String) : Bool :=
  filt.isEmpty || filt.any (fun f => strIncludes key f)

/-- The sanitized copy makeSafeCopy builds: primitives (the marker values
such as '[Max Depth Reached]' are strings), arrays and key-value objects. -/
inductive SafeVal where
  | prim (p : Prim)
  | arr (elems : List SafeVal)
  | obj (props : List (String × SafeVal))
deriving Repr

/-- The function properties makeSafeCopy skips:
`['arguments', 'caller', 'prototype', 'length']`. -/
def internalFnProps : List String := ["arguments", "caller", "prototype", "length"]

/-- Sequentially thread the single mutable `visited` set through a list of
child computations, as the JS `for` loops do, collecting the outputs. -/
def threadList {α β : Type} (g : α → List ℕ → Option (β × List ℕ)) :
    List α → List ℕ → Option (List β × List ℕ)
  | [], vis => some ([], vis)
  | x :: xs, vis =>
    match g x vis with
    | none => none
    | some (y, vis1) =>
      match threadList g xs vis1 with
      | none => none
      | some (ys, vis2) => some (y :: ys, vis2)

/-- makeSafeCopy (src/lib/objectExplorer.ts lines 45-147) with explicit fuel
standing for the call stack: `none` means the recursion did not complete
within `fuel` nested calls, so the termination of the source function is the
statement that enough fuel always yields `some`. Branches in source order:
the `depth > maxDepth` marker, primitives returned as-is, `'[Function]'`
when functions are not included, the circular-reference marker against the
shared visited set, then per-element (array), per-own-property (function,
skipping the internal names, with `__name` first) and per-key (object,
applying the filter and the enumerable check) recursion at `depth + 1`.
Property reads are data reads of the heap (the try/catch fallbacks for
throwing getters have no counterpart in a data heap). -/
def makeSafeCopyF (h : Heap) (includeFunctions : Bool) (filt : List String)
    (maxDepth : ℕ) :
    ℕ → Val → ℕ → List ℕ → Option (SafeVal × List ℕ)
  | 0, _, _, _ => none
  | fuel + 1, v, depth, visited =>
    if depth > maxDepth then
      some (SafeVal.prim (Prim.str "[Max Depth Reached]"), visited)
    else
      match v with
      | Val.prim p => some (SafeVal.prim p, visited)
      | Val.ref r =>
        if isFuncNode (h r) && !includeFunctions then
          some (SafeVal.prim (Prim.str "[Function]"), visited)
        else if visited.contains r then
          some (SafeVal.prim (Prim.str "[Circular Reference]"), visited)
        else
          match h r with
          | HeapVal.arr elems =>
            (threadList
                (fun item vis =>
                  makeSafeCopyF h includeFunctions filt maxDepth fuel item (depth + 1) vis)
                elems (r :: visited)).map
              (fun p => (SafeVal.arr p.1, p.2))
          | HeapVal.func name props =>
            (threadList
                (fun pr vis =>
                  (makeSafeCopyF h includeFunctions filt maxDepth fuel pr.2 (depth + 1) vis).map
                    (fun q => ((pr.1, q.1), q.2)))
                (props.filter (fun pr => !(internalFnProps.contains pr.1)))
                (r :: visited)).map
              (fun p =>
                (SafeVal.obj
                  (("__name",
                    SafeVal.prim (Prim.str (if name = "" then "[Anonymous function]" else name))) ::
                    p.1), p.2))
          | HeapVal.obj props =>
            (threadList
                (fun pr vis =>
                  (makeSafeCopyF h includeFunctions filt maxDepth fuel pr.2.2 (depth + 1) vis).map
                    (fun q => ((pr.1, q.1), q.2)))
                (props.filter (fun pr => passesFilter filt pr.1 && (pr.2.1 || includeFunctions)))
                (r :: visited)).map
              (fun p => (SafeVal.obj p.1, p.2))

theorem threadList_isSome {α β : Type} (g : α → List ℕ → Option (β × List ℕ))
    (hg : ∀ x vis, (g x vis).isSome) :
    ∀ (l : List α) (vis : List ℕ), (threadList g l vis).isSome := by
  intro l
  induction l with
  | nil => intro vis; simp [threadList]
  | cons x xs ih =>
    intro vis
    obtain ⟨⟨y, vis1⟩, hx⟩ := Option.isSome_iff_exists.mp (hg x vis)
    obtain ⟨⟨ys, vis2⟩, hx2⟩ := Option.isSome_iff_exists.mp (ih vis1)
    simp [threadList, hx, hx2]

theorem isSome_omap {α β : Type} (f : α → β) (o : Option α) :
    (o.map f).isSome = o.isSome := by
  cases o <;> rfl

theorem makeSafeCopyF_isSome (h : Heap) (includeFunctions : Bool)
    (filt : List String) (maxDepth : ℕ) :
    ∀ (fuel : ℕ) (v : Val) (depth : ℕ) (visited : List ℕ),
      maxDepth + 1 - depth < fuel →
      (makeSafeCopyF h includeFunctions filt maxDepth fuel v depth visited).isSome := by
  intro fuel
  induction fuel with
  | zero => intro v depth visited hlt; omega
  | succ fuel ih =>
    intro v depth visited hlt
    by_cases hd : depth > maxDepth
    · simp [makeSafeCopyF, hd]
    · have hrec : maxDepth + 1 - (depth + 1) < fuel := by omega
      cases v with
      | prim p => simp [makeSafeCopyF, hd]
      | ref r =>
        by_cases hfn : (isFuncNode (h r) && !includeFunctions) = true
        · simp [makeSafeCopyF, hd, hfn]
        · by_cases hv : r ∈ visited
          · simp [makeSafeCopyF, hd, hfn, hv]
          · cases hn : h r with
            | arr elems =>
              have hth := threadList_isSome
                (fun item vis =>
                  makeSafeCopyF h includeFunctions filt maxDepth fuel item (depth + 1) vis)
                (fun item vis => ih item (depth + 1) vis hrec) elems (r :: visited)
              simp only [makeSafeCopyF, hd, hn, isFuncNode, hv, isSome_omap]
              simpa [hd, hv] using hth
            | func name props =>
              have hif : includeFunctions = true := by
                rw [hn] at hfn
                simpa [isFuncNode] using hfn
              have hth := threadList_isSome
                (fun (pr : String × Val) vis =>
                  (makeSafeCopyF h includeFunctions filt maxDepth fuel pr.2 (depth + 1) vis).map
                    (fun q => ((pr.1, q.1), q.2)))
                (fun pr vis => by
                  rw [isSome_omap]
                  exact ih pr.2 (depth + 1) vis hrec)
                (props.filter (fun pr => !(internalFnProps.contains pr.1)))
                (r :: visited)
              simp only [makeSafeCopyF, hd, hn, isFuncNode, hv, hif, isSome_omap]
              simpa [hd, hv, hif] using hth
            | obj props =>
              have hth := threadList_isSome
                (fun (pr : String × Bool × Val) vis =>
                  (makeSafeCopyF h includeFunctions filt maxDepth fuel pr.2.2 (depth + 1) vis).map
                    (fun q => ((pr.1, q.1), q.2)))
                (fun pr vis => by
                  rw [isSome_omap]
                  exact ih pr.2.2 (depth + 1) vis hrec)
                (props.filter (fun pr => passesFilter filt pr.1 && (pr.2.1 || includeFunctions)))
                (r :: visited)
              simp only [makeSafeCopyF, hd, hn, isFuncNode, hv, isSome_omap]
              simpa [hd, hv] using hth

/-- The search pattern of findProperties: a plain string (matched with
`key.includes`) or a regex, whose `test` predicate is the behaviour of the
external RegExp object. -/
inductive SearchPattern where
  | strPattern (s : String)
  | regexPattern (test : String → Bool)

/-- `regex ? searchPattern.test(key) : key.includes(searchPattern)`. -/
def keyMatches : SearchPattern → String → Bool
  | SearchPattern.strPattern p, key => strIncludes key p
  | SearchPattern.regexPattern t, key => t key

/-- `typeof value === 'object'`: true for arrays, plain objects and null
(the JS quirk that `typeof null === 'object'`), false for functions and the
other primitives. -/
def typeofIsObject (h : Heap) : Val → Bool
  | Val.prim Prim.null => true
  | Val.prim _ => false
  | Val.ref r =>
    match h r with
    | HeapVal.func _ _ => false
    | _ => true

/-- The keys the search loop iterates over, with their values:
`typeof value === 'object' ? Object.getOwnPropertyNames(value) : []`.
For an array the own names are the element indices and `length`; for a plain
object all own property names, enumerable or not; for a function the list is
empty. -/
def nodeProps : HeapVal → List (String × Val)
  | HeapVal.arr elems =>
    (elems.enum.map (fun p => (toString p.1, p.2))) ++
      [("length", Val.prim (Prim.number elems.length))]
  | HeapVal.obj props => props.map (fun pr => (pr.1, pr.2.2))
  | HeapVal.func _ _ => []

/-- The inner `search` of findProperties (src/lib/objectExplorer.ts lines
176-227) with explicit fuel standing for the call stack. Guards in source
order: null/undefined and `depth > maxDepth` return; a value already in the
shared visited set returns; non-object non-function primitives return; then
the value is marked visited and each own key is processed: the path is
extended (`path ? path + '.' + key : key`), a matching key records
`value[key]` (or `'[Found]'` when values are not included) into the results
before recursing, and the recursion at `depth + 1` happens only when
`typeof value[key] === 'object'`. -/
def searchF (h : Heap) (pat : SearchPattern) (includeValues : Bool)
    (maxDepth : ℕ) :
    ℕ → Val → String → ℕ → List ℕ → List (String × Val) →
      Option (List ℕ × List (String × Val))
  | 0, _, _, _, _, _ => none
  | fuel + 1, v, path, depth, visited, results =>
    match v with
    | Val.prim Prim.null => some (visited, results)
    | Val.prim Prim.undef => some (visited, results)
    | v =>
      if depth > maxDepth then some (visited, results)
      else
        match v with
        | Val.prim _ => some (visited, results)
        | Val.ref r =>
          if visited.contains r then some (visited, results)
          else
            (nodeProps (h r)).foldlM
              (fun st pr =>
                let newPath := if path = "" then pr.1 else path ++ "." ++ pr.1
                let res1 :=
                  if keyMatches pat pr.1 then
                    st.2 ++ [(newPath,
                      if includeValues then pr.2 else Val.prim (Prim.str "[Found]"))]
                  else st.2
                if typeofIsObject h pr.2 then
                  searchF h pat includeValues maxDepth fuel pr.2 newPath (depth + 1)
                    st.1 res1
                else some (st.1, res1))
              (r :: visited, results)

theorem foldlM_option_isSome {α σ : Type} (f : σ → α → Option σ)
    (hf : ∀ st x, (f st x).isSome) :
    ∀ (l : List α) (st : σ), (l.foldlM f st).isSome := by
  intro l
  induction l with
  | nil => intro st; simp
  | cons x xs ih =>
    intro st
    obtain ⟨st1, hx⟩ := Option.isSome_iff_exists.mp (hf st x)
    rw [List.foldlM_cons, hx]
    show (xs.foldlM f st1).isSome
    exact ih st1

theorem searchF_isSome (h : Heap) (pat : SearchPattern) (includeValues : Bool)
    (maxDepth : ℕ) :
    ∀ (fuel : ℕ) (v : Val) (path : String) (depth : ℕ) (visited : List ℕ)
      (results : List (String × Val)),
      maxDepth + 1 - depth < fuel →
      (searchF h pat includeValues maxDepth fuel v path depth visited results).isSome := by
  intro fuel
  induction fuel with
  | zero => intro v path depth visited results hlt; omega
  | succ fuel ih =>
    intro v path depth visited results hlt
    cases v with
    | prim p =>
      cases p with
      | null => simp [searchF]
      | undef => simp [searchF]
      | boolean b => by_cases hd : depth > maxDepth <;> simp [searchF, hd]
      | number q => by_cases hd : depth > maxDepth <;> simp [searchF, hd]
      | str s => by_cases hd : depth > maxDepth <;> simp [searchF, hd]
    | ref r =>
      by_cases hd : depth > maxDepth
      · simp [searchF, hd]
      · by_cases hv : r ∈ visited
        · simp [searchF, hd, hv]
        · have hrec : maxDepth + 1 - (depth + 1) < fuel := by omega
          have hf : ∀ (st : List ℕ × List (String × Val)) (pr : String × Val),
              ((fun st (pr : String × Val) =>
                let newPath := if path = "" then pr.1 else path ++ "." ++ pr.1
                let res1 :=
                  if keyMatches pat pr.1 then
                    st.2 ++ [(newPath,
                      if includeValues then pr.2 else Val.prim (Prim.str "[Found]"))]
                  else st.2
                if typeofIsObject h pr.2 then
                  searchF h pat includeValues maxDepth fuel pr.2 newPath (depth + 1)
                    st.1 res1
                else some (st.1, res1)) st pr).isSome := by
            intro st pr
            dsimp only
            by_cases ht : typeofIsObject h pr.2
            · simp only [ht, if_true]
              exact ih pr.2 _ (depth + 1) st.1 _ hrec
            · simp [ht]
          have hfold := foldlM_option_isSome _ hf (nodeProps (h r)) (r :: visited, results)
          simp only [searchF, hd, hv]
          simpa [hd, hv] using hfold

/-- C9: both recursive explorers terminate on every object graph, cycles
included: with fuel `maxDepth + 2` (one stack frame per depth level plus the
final depth-guard frame), the fuel-indexed embeddings of makeSafeCopy (the
recursion inside logObjectProperties) and of search (the recursion inside
findProperties) complete on every heap, every start value and every option
set, because each recursive call increases the depth toward the maxDepth
cut-off and revisits are cut by the visited set. -/
theorem c9_object_explorers_terminate (h : Heap) (includeFunctions : Bool)
    (filt : List String) (maxDepth : ℕ) (v : Val) (pat : SearchPattern)
    (includeValues : Bool) :
    (∃ out, makeSafeCopyF h includeFunctions filt maxDepth (maxDepth + 2) v 0 [] =
      some out) ∧
      (∃ out, searchF h pat includeValues maxDepth (maxDepth + 2) v "" 0 [] [] =
        some out) := by
  constructor
  · exact Option.isSome_iff_exists.mp
      (makeSafeCopyF_isSome h includeFunctions filt maxDepth (maxDepth + 2) v 0 []
        (by omega))
  · exact Option.isSome_iff_exists.mp
      (searchF_isSome h pat includeValues maxDepth (maxDepth + 2) v "" 0 [] []
        (by omega))

end Explorer

/-! ## Model status record (src/types/llm.ts ModelStatus) -/

/-- `ModelStatus` from src/types/llm.ts: isLoading with optional progress and
error message. (The extended variant's `isReady` flag plays no part in the
claims and is omitted.) -/
structure ModelStatusRec where
  isLoading : Bool
  progress : Option ℚ
  error : Option String
deriving DecidableEq, Repr

/-! ## Stalled-download timeout in initEngine (src/unnamed/part_001,
earlier variant lines 161-396, final variant lines 793-961) -/

namespace DownloadTimeout

/-- The timer-relevant state of one run of the initEngine effect. `varGen`
is the id held by the `downloadTimeout` variable (`none` after it is nulled),
`pending` whether that timer is still scheduled, and `nextGen` counts
`setTimeout` calls, so an unchanged `nextGen` means no timer was armed. -/
structure TimerState where
  varGen : Option ℕ
  pending : Bool
  nextGen : ℕ
  delayMs : ℕ
  timerMsg : String
  mounted : Bool
  loadingProgress : ℚ
  status : ModelStatusRec
deriving DecidableEq, Repr

/-- `downloadTimeout = setTimeout(handler, d)`: allocate a fresh timer id
into the variable, schedule it with delay `d` and handler message `msg`. -/
def armTimeout (s : TimerState) (d : ℕ) (msg : String) : TimerState :=
  { s with varGen := some s.nextGen, pending := true, nextGen := s.nextGen + 1,
           delayMs := d, timerMsg := msg }

/-- `clearTimeout(downloadTimeout)`: cancel the scheduled callback (a no-op
on a spent or already-cleared handle). -/
def clearPending (s : TimerState) : TimerState :=
  { s with pending := false }

/-- The message of the timer armed before engine creation. -/
def timedOutMsg : String :=
  "Download timed out. Please try again or check your network connection."

/-- The message of the timer the earlier variant re-arms on progress. -/
def stalledMsg : String :=
  "Download stalled. Please try again or check your network connection."

/-- Both initEngine variants, just before `CreateMLCEngine`:
`downloadTimeout = setTimeout(..., 120000)`. -/
def initArm (s : TimerState) : TimerState :=
  armTimeout s 120000 timedOutMsg

/-- The external events of one engine load. -/
inductive InitEvent where
  | progress (p : ℚ)
  | timerFire
  | engineCreated
  | cleanup

/-- An armed download timeout elapsing: the handle is spent, and if the
component is still mounted the handler reports
`{ isLoading: false, error: <the stalled-download message> }`. -/
def fireTimeout (s : TimerState) : TimerState :=
  if s.pending then
    let s1 := clearPending s
    if s1.mounted then
      { s1 with status := ⟨false, none, some s.timerMsg⟩ }
    else s1
  else s

/-- `if (downloadTimeout) { clearTimeout(downloadTimeout);
downloadTimeout = null; }` after `CreateMLCEngine` resolves. -/
def clearAndNull (s : TimerState) : TimerState :=
  if s.varGen.isSome then { (clearPending s) with varGen := none } else s

/-- The earlier initEngine variant (lines 161-396). Its progress callback,
when mounted, re-arms the timeout whenever the variable is non-null
(`if (downloadTimeout) { clearTimeout(...); downloadTimeout = setTimeout(...,
120000) }`) and reports `{ isLoading: true, progress }`; the cleanup sets
isMounted to false and clears any held timer. -/
def stepV1 (s : TimerState) : InitEvent → TimerState
  | InitEvent.progress p =>
    if s.mounted then
      let s1 := if s.varGen.isSome then armTimeout (clearPending s) 120000 stalledMsg else s
      { s1 with status := ⟨true, some p, none⟩ }
    else s
  | InitEvent.timerFire => fireTimeout s
  | InitEvent.engineCreated => clearAndNull s
  | InitEvent.cleanup =>
    let s1 := { s with mounted := false }
    if s1.varGen.isSome then clearPending s1 else s1

/-- The final initEngine variant (lines 793-961). Its progress callback,
when mounted, only updates the local loading-progress state
(`setLoadingProgress(progress * 100)`) and the stats hook; it does not touch
the timer or the model status. Timer fire, creation and cleanup behave as in
the earlier variant. -/
def stepV2 (s : TimerState) : InitEvent → TimerState
  | InitEvent.progress p =>
    if s.mounted then { s with loadingProgress := p * 100 } else s
  | InitEvent.timerFire => fireTimeout s
  | InitEvent.engineCreated => clearAndNull s
  | InitEvent.cleanup =>
    let s1 := { s with mounted := false }
    if s1.varGen.isSome then clearPending s1 else s1

/-- A mounted state with the timeout freshly armed before engine creation. -/
def armedExample : TimerState :=
  initArm ⟨none, false, 0, 0, "", true, 0, ⟨true, none, none⟩⟩

/-- C4 counterexample: in the final initEngine variant the progress callback
does not re-arm the stalled-download timeout. From a mounted state with the
timeout armed, a progress callback leaves `nextGen` (the number of setTimeout
calls), the held timer id and the delay unchanged, so no timer was re-armed,
refuting "re-armed on every progress callback" for the cited lines 820-865. -/
theorem c4_progress_does_not_rearm_in_final_variant :
    (stepV2 armedExample (InitEvent.progress 1)).nextGen = armedExample.nextGen ∧
      (stepV2 armedExample (InitEvent.progress 1)).varGen = armedExample.varGen ∧
      (stepV2 armedExample (InitEvent.progress 1)).delayMs = armedExample.delayMs ∧
      armedExample.pending = true ∧ armedExample.mounted = true := by
  refine ⟨rfl, rfl, rfl, rfl, rfl⟩

/-- C4 (amended): in both initEngine variants a 120000 ms stalled-download
timeout is armed immediately before engine creation; the earlier variant
re-arms a fresh 120000 ms timer on every progress callback that arrives while
mounted with the timer variable set, while the final variant's progress
callback never touches the timer; in both variants, if the armed timeout
fires while the component is mounted the status becomes not-loading with the
stalled-download error message, and the pending timeout is cancelled when
engine creation completes and on effect cleanup. -/
theorem c4_download_timeout_amended :
    (∀ s, (initArm s).pending = true ∧ (initArm s).delayMs = 120000) ∧
      (∀ s p, s.mounted = true → s.varGen.isSome = true →
        (stepV1 s (InitEvent.progress p)).nextGen = s.nextGen + 1 ∧
          (stepV1 s (InitEvent.progress p)).pending = true ∧
          (stepV1 s (InitEvent.progress p)).delayMs = 120000) ∧
      (∀ s p, (stepV2 s (InitEvent.progress p)).nextGen = s.nextGen ∧
        (stepV2 s (InitEvent.progress p)).varGen = s.varGen ∧
        (stepV2 s (InitEvent.progress p)).pending = s.pending) ∧
      (∀ s, s.mounted = true → s.pending = true →
        (stepV1 s InitEvent.timerFire).status = ⟨false, none, some s.timerMsg⟩ ∧
          (stepV2 s InitEvent.timerFire).status = ⟨false, none, some s.timerMsg⟩) ∧
      (∀ s, s.pending = true → s.varGen.isSome = true →
        (stepV1 s InitEvent.engineCreated).pending = false ∧
          (stepV1 s InitEvent.cleanup).pending = false ∧
          (stepV2 s InitEvent.engineCreated).pending = false ∧
          (stepV2 s InitEvent.cleanup).pending = false) := by
  refine ⟨fun s => ⟨rfl, rfl⟩, ?_, ?_, ?_, ?_⟩
  · intro s p hm hv
    simp [stepV1, armTimeout, clearPending, hm, hv]
  · intro s p
    by_cases hm : s.mounted = true <;> simp [stepV2, hm]
  · intro s hm hp
    constructor <;> simp [stepV1, stepV2, fireTimeout, clearPending, hm, hp]
  · intro s hp hv
    refine ⟨?_, ?_, ?_, ?_⟩ <;>
      simp [stepV1, stepV2, clearAndNull, clearPending, hv]

/-- Witness for C4 (amended) at the armed example state: the earlier variant
re-arms on progress, the timer fires into the timed-out status, and creation
cancels the timer. -/
theorem c4_download_timeout_amended_witness :
    ((stepV1 armedExample (InitEvent.progress 1)).nextGen =
        armedExample.nextGen + 1 ∧
      (stepV1 armedExample (InitEvent.progress 1)).pending = true ∧
      (stepV1 armedExample (InitEvent.progress 1)).delayMs = 120000) ∧
      (stepV1 armedExample InitEvent.timerFire).status =
        ⟨false, none, some armedExample.timerMsg⟩ ∧
      (stepV2 armedExample InitEvent.engineCreated).pending = false := by
  refine ⟨?_, ?_, ?_⟩
  · exact c4_download_timeout_amended.2.1 armedExample 1 rfl rfl
  · exact (c4_download_timeout_amended.2.2.2.1 armedExample rfl rfl).1
  · exact (c4_download_timeout_amended.2.2.2.2 armedExample rfl rfl).2.2.1

end DownloadTimeout

/-! ## ModelStatus retry button (ModelConfigForm.tsx third section /
ModelStatus.tsx) -/

namespace StatusView

/-- The substrings whose presence in the error message classifies it as a
WebGPU error. -/
def webGPUMarkers : List String :=
  ["WebGPU", "Program terminated", "ExitStatus", "GPU"]

/-- `error && (error.includes("WebGPU") || error.includes("Program
terminated") || error.includes("ExitStatus") || error.includes("GPU"))`. -/
def isWebGPUError (error : Option String) : Bool :=
  match error with
  | none => false
  | some e => webGPUMarkers.any (fun m => Explorer.strIncludes e m)

/-- The retry button of the enhanced ModelStatus component:
`{isWebGPUError && onRetry && (<Button onClick={onRetry} ...>)}`. The result
is the onClick handler of the rendered button, `none` when no button is
rendered; `α` is the callback type and `onRetry = none` means the prop was
not passed. -/
def retryButton {α : Type} (status : ModelStatusRec) (onRetry : Option α) :
    Option α :=
  if isWebGPUError status.error then onRetry else none

/-- The simpler ModelStatus.tsx component renders no retry button for any
status. -/
def retryButtonSimple {α : Type} (_ : ModelStatusRec) : Option α :=
  none

/-- C6 counterexample: a surfaced engine-lifecycle error (the download
timeout message) with an onRetry callback supplied renders no retry button
in either ModelStatus variant, refuting "for every engine-lifecycle error
... renders a manual retry button". -/
theorem c6_non_webgpu_error_has_no_retry_button :
    retryButton
        ⟨false, none,
          some "Download timed out. Please try again or check your network connection."⟩
        (some 0) = (none : Option ℕ) ∧
      retryButtonSimple
        ⟨false, none,
          some "Download timed out. Please try again or check your network connection."⟩ =
        (none : Option ℕ) := by
  exact ⟨by decide, rfl⟩

/-- C6 (amended): the enhanced ModelStatus renders the manual retry button
exactly when the surfaced error message is classified as a WebGPU error
(contains "WebGPU", "Program terminated", "ExitStatus" or "GPU") and an
onRetry callback was supplied; the rendered button's onClick handler is the
onRetry callback itself; the simpler ModelStatus variant never renders one. -/
theorem c6_retry_button_amended {α : Type} (status : ModelStatusRec) (a : α) :
    (retryButton status (some a) = some a ↔ isWebGPUError status.error = true) ∧
      retryButton status (none : Option α) = none ∧
      (∀ x, retryButton status (some a) = some x → x = a) ∧
      retryButtonSimple status = (none : Option α) := by
  refine ⟨?_, ?_, ?_, rfl⟩
  · by_cases hw : isWebGPUError status.error <;> simp [retryButton, hw]
  · exact ite_self none
  · intro x hx
    by_cases hw : isWebGPUError status.error
    · rw [retryButton, if_pos hw] at hx
      exact ((Option.some.injEq a x).mp hx).symm
    · rw [retryButton, if_neg hw] at hx
      exact Option.noConfusion hx

/-- Witness for C6 (amended): a WebGPU error with a supplied callback
renders the button and clicking it invokes that callback. -/
theorem c6_retry_button_amended_witness :
    retryButton
        ⟨false, none, some "WebGPU is not supported in this browser."⟩
        (some 7) = some (7 : ℕ) := by
  exact (c6_retry_button_amended
    ⟨false, none, some "WebGPU is not supported in this browser."⟩ (7 : ℕ)).1.mpr
    (by decide)

end StatusView

/-! ## Range validation of the configuration form
(src/components/llm/ModelConfigForm.tsx) -/

namespace FormValidation

/-- The data react-hook-form submits: the numeric fields hold
`parseFloat`/`parseInt` of the input text, so `none` models NaN (the value a
cleared or unparsable field produces and the state a missing stored value
leaves). -/
structure FormValues where
  modelId : String
  temperature : Option ℚ
  maxTokens : Option ℚ
  topP : Option ℚ
  repetitionPenalty : Option ℚ
  logLevel : Option String
deriving DecidableEq, Repr

/-- Browser-native constraint validation for `<input type="number" min max>`
without `required` (the form sets no noValidate and registers no
react-hook-form rules, so this gate is all that stands before onSubmit): a
NaN-valued controlled number input renders as the empty string, and an empty
non-required input is not a constraint violation, so `none` passes; a numeric
value must lie within [min, max]. (The `step` attribute only adds further
constraints and cannot widen the ranges.) -/
def numInputValid (lo hi : ℚ) : Option ℚ → Bool
  | none => true
  | some q => decide (lo ≤ q) && decide (q ≤ hi)

/-- Submitting the form: native validation over the four numeric fields with
the min/max attributes of ModelConfigForm.tsx (temperature 0..2, maxTokens
100..4096, topP 0..1, repetitionPenalty 1..2) gates the submit event; when it
passes, onSubmit persists the form data unchanged (`setStoredConfig(data)`),
so the persisted record is the submitted record. -/
def submitForm (fv : FormValues) : Option FormValues :=
  if numInputValid 0 2 fv.temperature && numInputValid 100 4096 fv.maxTokens &&
      numInputValid 0 1 fv.topP && numInputValid 1 2 fv.repetitionPenalty then
    some fv
  else none

/-- The range predicate of the claim: the field holds an actual number lying
in [lo, hi]; a NaN field fails it. -/
def fieldInRange (v : Option ℚ) (lo hi : ℚ) : Prop :=
  ∃ q, v = some q ∧ lo ≤ q ∧ q ≤ hi

/-- A submission whose temperature field was cleared (parseFloat('') = NaN)
while the other fields hold in-range values. -/
def clearedTemperatureForm : FormValues :=
  ⟨"Llama-3.1-8B-Instruct-q4f32_1-MLC", none, some 800, some 1, some 2, some "3"⟩

/-- C5 counterexample: the cleared-temperature submission passes the form's
validation and is persisted, yet its temperature does not lie in [0, 2] (it
is NaN), refuting "temperature lies in [0, 2] ... for every configuration
produced by submitting the form". -/
theorem c5_cleared_field_persists_out_of_range :
    submitForm clearedTemperatureForm = some clearedTemperatureForm ∧
      ¬ fieldInRange clearedTemperatureForm.temperature 0 2 := by
  constructor
  · decide
  · rintro ⟨q, hq, -⟩
    exact Option.noConfusion hq

/-- C5 (amended): for every configuration produced by submitting the form,
each numeric field that holds an actual number lies in its range
(temperature in [0, 2], topP in [0, 1], repetitionPenalty in [1, 2],
maxTokens in [100, 4096]); a field cleared to NaN renders as an empty input,
passes the native validation (the inputs are not required), and is persisted
with no range check. -/
theorem c5_submitted_ranges_amended (fv c : FormValues)
    (h : submitForm fv = some c) :
    (∀ q, c.temperature = some q → 0 ≤ q ∧ q ≤ 2) ∧
      (∀ q, c.maxTokens = some q → 100 ≤ q ∧ q ≤ 4096) ∧
      (∀ q, c.topP = some q → 0 ≤ q ∧ q ≤ 1) ∧
      (∀ q, c.repetitionPenalty = some q → 1 ≤ q ∧ q ≤ 2) := by
  unfold submitForm at h
  by_cases hcond : (numInputValid 0 2 fv.temperature &&
      numInputValid 100 4096 fv.maxTokens && numInputValid 0 1 fv.topP &&
      numInputValid 1 2 fv.repetitionPenalty) = true
  · rw [if_pos hcond] at h
    injection h with h
    subst h
    simp only [Bool.and_eq_true] at hcond
    obtain ⟨⟨⟨h1, h2⟩, h3⟩, h4⟩ := hcond
    refine ⟨?_, ?_, ?_, ?_⟩
    · intro q hq
      rw [hq] at h1
      simpa [numInputValid, decide_eq_true_eq] using h1
    · intro q hq
      rw [hq] at h2
      simpa [numInputValid, decide_eq_true_eq] using h2
    · intro q hq
      rw [hq] at h3
      simpa [numInputValid, decide_eq_true_eq] using h3
    · intro q hq
      rw [hq] at h4
      simpa [numInputValid, decide_eq_true_eq] using h4
  · rw [if_neg hcond] at h
    exact Option.noConfusion h

/-- Witness for C5 (amended) at the default configuration values. -/
theorem c5_submitted_ranges_amended_witness :
    submitForm ⟨"Llama-3.1-8B-Instruct-q4f32_1-MLC", some 1, some 800, some 1,
        some 1, some "3"⟩ =
      some ⟨"Llama-3.1-8B-Instruct-q4f32_1-MLC", some 1, some 800, some 1,
        some 1, some "3"⟩ ∧
      ((1 : ℚ) ≤ 1 ∧ (1 : ℚ) ≤ 2) := by
  have h : submitForm ⟨"Llama-3.1-8B-Instruct-q4f32_1-MLC", some 1, some 800,
      some 1, some 1, some "3"⟩ =
      some ⟨"Llama-3.1-8B-Instruct-q4f32_1-MLC", some 1, some 800, some 1,
        some 1, some "3"⟩ := by decide
  refine ⟨h, ?_⟩
  exact (c5_submitted_ranges_amended _ _ h).2.2.2 1 rfl

end FormValidation

end WebLLM
